import Mathlib

/-
Shallow embedding of the figma_mcp relay broker (src/websocket_proxy.py)
and the color helper (src/src/figma_mcp/figma_types.py), with theorems
checking the natural-language specification against the code.

Modelling conventions:
  * a websocket endpoint is an opaque identity, modelled as a natural number;
  * the module-level globals `clients : Set[...]` and
    `channels : Dict[str, Set[...]]` become a `ProxyState` record; a Python
    dict is an association list with unique keys, insertion order preserved;
    a Python set is a duplicate-free list, iterated in its list order (set
    iteration order is unspecified in Python; the list order is its
    representative), `add` appends a fresh element, `discard` filters the
    element out;
  * `await client.send(...)` either succeeds or raises; the environment's
    choice is an oracle `sendOk : Client -> Bool`; a send call that the code
    makes is recorded in an output list whether or not it succeeds;
  * each operation is a pure function from state to state plus outputs.
-/

namespace WsProxy

abbrev Client := Nat

/-- Python set.add on the duplicate-free-list model of a set. -/
def setAdd (x : Client) (l : List Client) : List Client :=
  if x ∈ l then l else l ++ [x]

/-- Python set.discard on the duplicate-free-list model of a set. -/
def setDiscard (x : Client) (l : List Client) : List Client :=
  l.filter (fun c => !(c == x))

/-- State of the module-level globals of websocket_proxy.py:
`clients` (line 25) and `channels` (line 26). -/
structure ProxyState where
  clients : List Client
  channels : List (String × List Client)
deriving DecidableEq

/-- Initial state: both globals start empty. -/
def initState : ProxyState := ⟨[], []⟩

/-- Python dict assignment `m[k] = v`: replace the value at the first
occurrence of the key, else append the new binding at the end. -/
def dictInsert (k : String) (v : List Client) :
    List (String × List Client) → List (String × List Client)
  | [] => [(k, v)]
  | p :: rest => if k = p.1 then (k, v) :: rest else p :: dictInsert k v rest

/-- Current member set of a channel, empty when the key is absent. -/
def membersOf (s : ProxyState) (channel : String) : List Client :=
  (List.lookup channel s.channels).getD []

/-- register_client (lines 29-32): add the connection to the global set. -/
def register_client (s : ProxyState) (ws : Client) : ProxyState :=
  { s with clients := setAdd ws s.clients }

/-- The channel-map part of unregister_client (lines 39-48): discard the
connection from every channel's member set, then delete the channels whose
member set became empty. -/
def removeFromChannels (ws : Client) (chs : List (String × List Client)) :
    List (String × List Client) :=
  (chs.map (fun p => (p.1, setDiscard ws p.2))).filter (fun p => !p.2.isEmpty)

/-- unregister_client (lines 35-50): discard from `clients`, discard from all
channels, drop channels that became empty. -/
def unregister_client (s : ProxyState) (ws : Client) : ProxyState :=
  ⟨setDiscard ws s.clients, removeFromChannels ws s.channels⟩

/-- join_channel (lines 53-59): create the channel's set if absent, then add
the connection to it. -/
def join_channel (s : ProxyState) (ws : Client) (channel : String) : ProxyState :=
  { s with channels := dictInsert channel (setAdd ws (membersOf s channel)) s.channels }

/-- Output of broadcast_to_channel: the new globals, the send calls made
(each with the payload handed to `client.send`), and the clients whose send
succeeded (counted by `broadcast_count` in the code). -/
structure BcastOut (α : Type) where
  state : ProxyState
  sent : List (Client × α)
  delivered : List Client
deriving DecidableEq

/-- broadcast_to_channel (lines 62-89).  Unknown channel: log and return.
Otherwise iterate over the member set, call `send` on every member other
than the sender, collect the members whose send raised, and after the loop
discard each of them from this channel's member set and from the global
client set.  The emptied channel entry is not deleted here.  The message is
opaque to the broker (it is `json.dumps`-ed once and handed to each send
call), hence the type parameter. -/
def broadcast_to_channel {α : Type} (s : ProxyState) (channel : String)
    (message : α) (sender : Option Client) (sendOk : Client → Bool) : BcastOut α :=
  match List.lookup channel s.channels with
  | none => ⟨s, [], []⟩
  | some members =>
    let recipients := members.filter (fun c => !(sender == some c))
    let disconnected := recipients.filter (fun c => !(sendOk c))
    ⟨⟨disconnected.foldl (fun acc c => setDiscard c acc) s.clients,
      dictInsert channel (disconnected.foldl (fun acc c => setDiscard c acc) members)
        s.channels⟩,
     recipients.map (fun c => (c, message)),
     recipients.filter (fun c => sendOk c)⟩

/-- Decoded form of an inbound JSON frame, keeping the fields handle_client
reads: `type`, `channel`, `id` and the presence of the `id` and `message`
keys. -/
structure MsgData where
  msgType : Option String
  channel : Option String
  hasId : Bool
  idVal : Option String
  hasMessage : Bool
deriving DecidableEq

/-- An inbound frame: either not parseable as JSON, or a decoded object. -/
inductive Frame where
  | malformed
  | parsed (d : MsgData)
deriving DecidableEq

/-- The payloads handle_client can hand to a send call: the join
acknowledgment (lines 110-117), the missing-channel-name error (121-125),
the channel-not-found-or-not-joined error carrying the frame's `id` and the
displayed channel name (134-139), the forwarded frame of a broadcast
(line 132), and the invalid-JSON error (152-156). -/
inductive Reply where
  | joinAck (channel : String)
  | channelRequired
  | notFound (idVal : Option String) (channelShown : String)
  | forwarded (d : MsgData)
  | invalidJson
deriving DecidableEq

/-- Result of handling one inbound frame: the new globals, the send calls
made, and whether this handling closed the connection (no branch of the
per-message body of handle_client closes it or leaves the receive loop). -/
structure HandleOut where
  state : ProxyState
  sent : List (Client × Reply)
  closed : Bool
deriving DecidableEq

/-- The per-message body of handle_client (lines 97-160), as a function of
the current globals, the receiving connection and the decoded frame.
JSON decode failure is caught and answered with an error reply to the
sender (lines 150-158).  A `join` frame with a truthy channel joins and is
acknowledged; with a falsy channel (absent or empty string) it gets the
channel-required error.  A `message` frame with a truthy channel that is a
key of `channels` is broadcast with the receiving connection as sender;
otherwise the sender alone gets an error naming the channel (None displays
as the string None).  A frame with `id` and `message` keys, and any other
frame, is only logged. -/
def handle_frame (s : ProxyState) (ws : Client) (f : Frame)
    (sendOk : Client → Bool) : HandleOut :=
  match f with
  | .malformed => ⟨s, [(ws, .invalidJson)], false⟩
  | .parsed d =>
    if d.msgType == some "join" then
      match d.channel with
      | some ch =>
        if ch == "" then ⟨s, [(ws, .channelRequired)], false⟩
        else ⟨join_channel s ws ch, [(ws, .joinAck ch)], false⟩
      | none => ⟨s, [(ws, .channelRequired)], false⟩
    else if d.msgType == some "message" then
      match d.channel with
      | some ch =>
        if !(ch == "") && (List.lookup ch s.channels).isSome then
          let b := broadcast_to_channel s ch (Reply.forwarded d) (some ws) sendOk
          ⟨b.state, b.sent, false⟩
        else ⟨s, [(ws, .notFound d.idVal ch)], false⟩
      | none => ⟨s, [(ws, .notFound d.idVal "None")], false⟩
    else if d.hasId && d.hasMessage then ⟨s, [], false⟩
    else ⟨s, [], false⟩

/-- The state-changing operations of the broker, for reachability.  The
broadcast payload does not affect the state, so it is elided. -/
inductive Op where
  | register (ws : Client)
  | unregister (ws : Client)
  | join (ws : Client) (channel : String)
  | broadcast (channel : String) (sender : Option Client) (sendOk : Client → Bool)

/-- Effect of one operation on the globals. -/
def applyOp (s : ProxyState) : Op → ProxyState
  | .register ws => register_client s ws
  | .unregister ws => unregister_client s ws
  | .join ws ch => join_channel s ws ch
  | .broadcast ch sender sendOk =>
      (broadcast_to_channel s ch () sender sendOk).state

/-- States reachable from the empty initial state by any sequence of
operations. -/
inductive Reachable : ProxyState → Prop
  | init : Reachable initState
  | step (s : ProxyState) (op : Op) : Reachable s → Reachable (applyOp s op)

/-- Every channel entry of the map has a non-empty member set (channel
existence is derived, never persisted empty). -/
def ChannelInv (s : ProxyState) : Prop :=
  ∀ p ∈ s.channels, (p.2 : List Client) ≠ []

/-- Every endpoint belongs to at most one channel. -/
def AtMostOneChannel (s : ProxyState) : Prop :=
  ∀ ws ch₁ ch₂ m₁ m₂, (ch₁, m₁) ∈ s.channels → (ch₂, m₂) ∈ s.channels →
    ws ∈ m₁ → ws ∈ m₂ → ch₁ = ch₂

/-- Every member of every channel is an element of the global client set. -/
def MembersRegistered (s : ProxyState) : Prop :=
  ∀ p ∈ s.channels, ∀ c ∈ p.2, c ∈ s.clients

/-- States reachable as handle_client produces them: a connection is
registered on arrival, so every join is performed by a currently
registered connection. -/
inductive ReachableH : ProxyState → Prop
  | init : ReachableH initState
  | register (s : ProxyState) (ws : Client) :
      ReachableH s → ReachableH (register_client s ws)
  | unregister (s : ProxyState) (ws : Client) :
      ReachableH s → ReachableH (unregister_client s ws)
  | join (s : ProxyState) (ws : Client) (ch : String) :
      ReachableH s → ws ∈ s.clients → ReachableH (join_channel s ws ch)
  | broadcast (s : ProxyState) (ch : String) (sender : Option Client)
      (sendOk : Client → Bool) :
      ReachableH s → ReachableH ((broadcast_to_channel s ch () sender sendOk).state)

/-- Handler-style reachability along traces in which every broadcast
delivery succeeds (the send oracle never fails). -/
inductive ReachableHOk : ProxyState → Prop
  | init : ReachableHOk initState
  | register (s : ProxyState) (ws : Client) :
      ReachableHOk s → ReachableHOk (register_client s ws)
  | unregister (s : ProxyState) (ws : Client) :
      ReachableHOk s → ReachableHOk (unregister_client s ws)
  | join (s : ProxyState) (ws : Client) (ch : String) :
      ReachableHOk s → ws ∈ s.clients → ReachableHOk (join_channel s ws ch)
  | broadcast (s : ProxyState) (ch : String) (sender : Option Client)
      (sendOk : Client → Bool) (hok : ∀ c, sendOk c = true) :
      ReachableHOk s → ReachableHOk ((broadcast_to_channel s ch () sender sendOk).state)

/-- Reachability along traces in which every broadcast is issued by a
sender that is a member of the target channel whenever that channel
exists. -/
inductive ReachableSM : ProxyState → Prop
  | init : ReachableSM initState
  | register (s : ProxyState) (ws : Client) :
      ReachableSM s → ReachableSM (register_client s ws)
  | unregister (s : ProxyState) (ws : Client) :
      ReachableSM s → ReachableSM (unregister_client s ws)
  | join (s : ProxyState) (ws : Client) (ch : String) :
      ReachableSM s → ReachableSM (join_channel s ws ch)
  | broadcast (s : ProxyState) (ch : String) (sender : Option Client)
      (sendOk : Client → Bool)
      (hmem : ∀ m, List.lookup ch s.channels = some m →
        ∃ c, sender = some c ∧ c ∈ m) :
      ReachableSM s → ReachableSM ((broadcast_to_channel s ch () sender sendOk).state)

end WsProxy

namespace FigmaTypes

/-- A Python dict of numeric fields, as rgba_to_hex reads it: an
association list from field name to value.  Python floats are modelled as
rationals. -/
abbrev PyDict := List (String × ℚ)

/-- Python color.get(k, 0). -/
def dget (d : PyDict) (k : String) : ℚ := (List.lookup k d).getD 0

/-- Python int() on a number: truncation toward zero. -/
def pyInt (q : ℚ) : ℤ :=
  if q.num < 0 then -(Int.ofNat (q.num.natAbs / q.den)) else Int.ofNat (q.num.natAbs / q.den)

/-- Lowercase hexadecimal digits of a natural number. -/
def hexStr (n : Nat) : String := String.mk (Nat.toDigits 16 n)

/-- Python format spec 02x on an int: lowercase hex, zero-padded to width
two, a sign counted inside the width. -/
def py02x (n : ℤ) : String :=
  if 0 ≤ n then
    let s := hexStr n.toNat
    if s.length < 2 then "0" ++ s else s
  else "-" ++ hexStr n.natAbs

/-- rgba_to_hex (figma_types.py lines 478-494) on the dict-or-None part of
its domain.  A falsy color (None or the empty dict) gives black; otherwise
the r, g and b fields are read with default 0, scaled by 255, truncated
by int() and formatted as two hex digits each. -/
def rgba_to_hex (color : Option PyDict) : String :=
  match color with
  | none => "#000000"
  | some d =>
    if d.isEmpty then "#000000"
    else
      "#" ++ py02x (pyInt (dget d "r" * 255))
          ++ py02x (pyInt (dget d "g" * 255))
          ++ py02x (pyInt (dget d "b" * 255))

/-- The hex string determined by the three channel values alone. -/
def hexOf (r g b : ℚ) : String :=
  "#" ++ py02x (pyInt (r * 255)) ++ py02x (pyInt (g * 255)) ++ py02x (pyInt (b * 255))

end FigmaTypes


/-
Helper lemmas about the set and dict primitives of the embedding.
-/

namespace WsProxy

theorem mem_setAdd (x y : Client) (l : List Client) :
    y ∈ setAdd x l ↔ y = x ∨ y ∈ l := by
  unfold setAdd
  by_cases hx : x ∈ l
  · rw [if_pos hx]
    constructor
    · exact Or.inr
    · rintro (rfl | hy)
      · exact hx
      · exact hy
  · rw [if_neg hx]
    simp [List.mem_append, or_comm]

theorem self_mem_setAdd (x : Client) (l : List Client) : x ∈ setAdd x l :=
  (mem_setAdd x x l).mpr (Or.inl rfl)

theorem setAdd_of_mem {x : Client} {l : List Client} (h : x ∈ l) : setAdd x l = l := by
  unfold setAdd
  exact if_pos h

theorem setAdd_ne_nil (x : Client) (l : List Client) : setAdd x l ≠ [] := by
  intro h
  exact absurd (h ▸ self_mem_setAdd x l) (List.not_mem_nil x)

theorem mem_setDiscard (x y : Client) (l : List Client) :
    y ∈ setDiscard x l ↔ y ∈ l ∧ y ≠ x := by
  unfold setDiscard
  simp [List.mem_filter]

theorem mem_foldl_setDiscard (l : List Client) (s : List Client) (c : Client) :
    c ∈ l.foldl (fun acc x => setDiscard x acc) s ↔ c ∈ s ∧ c ∉ l := by
  induction l generalizing s with
  | nil => simp
  | cons x xs ih =>
    rw [List.foldl_cons, ih, mem_setDiscard, List.mem_cons]
    constructor
    · rintro ⟨⟨hs, hne⟩, hxs⟩
      refine ⟨hs, ?_⟩
      rintro (rfl | h)
      · exact hne rfl
      · exact hxs h
    · rintro ⟨hs, hn⟩
      exact ⟨⟨hs, fun h => hn (Or.inl h)⟩, fun h => hn (Or.inr h)⟩

theorem lookup_cons_self {β : Type} (k : String) (v : β) (rest : List (String × β)) :
    List.lookup k ((k, v) :: rest) = some v := by
  rw [List.lookup]
  rw [show (k == k) = true from beq_self_eq_true k]

theorem lookup_cons_ne {β : Type} (k k' : String) (v : β) (rest : List (String × β))
    (h : k' ≠ k) : List.lookup k' ((k, v) :: rest) = List.lookup k' rest := by
  rw [List.lookup]
  rw [show (k' == k) = false from beq_eq_false_iff_ne.mpr h]

theorem mem_dictInsert (k : String) (v : List Client)
    (m : List (String × List Client)) (p : String × List Client) :
    p ∈ dictInsert k v m → p = (k, v) ∨ p ∈ m := by
  induction m with
  | nil =>
    intro h
    rw [dictInsert] at h
    exact Or.inl (by simpa using h)
  | cons q rest ih =>
    intro h
    rw [dictInsert] at h
    by_cases hk : k = q.1
    · rw [if_pos hk] at h
      rcases List.mem_cons.mp h with h1 | h1
      · exact Or.inl h1
      · exact Or.inr (List.mem_cons.mpr (Or.inr h1))
    · rw [if_neg hk] at h
      rcases List.mem_cons.mp h with h1 | h1
      · exact Or.inr (List.mem_cons.mpr (Or.inl h1))
      · rcases ih h1 with h2 | h2
        · exact Or.inl h2
        · exact Or.inr (List.mem_cons.mpr (Or.inr h2))

theorem lookup_dictInsert_self (k : String) (v : List Client)
    (m : List (String × List Client)) :
    List.lookup k (dictInsert k v m) = some v := by
  induction m with
  | nil =>
    rw [dictInsert]
    exact lookup_cons_self k v []
  | cons q rest ih =>
    rw [dictInsert]
    by_cases hk : k = q.1
    · rw [if_pos hk]
      exact lookup_cons_self k v rest
    · rw [if_neg hk]
      rcases q with ⟨qk, qv⟩
      rw [lookup_cons_ne qk k qv (dictInsert k v rest) hk]
      exact ih

theorem lookup_dictInsert_ne (k k' : String) (v : List Client)
    (m : List (String × List Client)) (h : k' ≠ k) :
    List.lookup k' (dictInsert k v m) = List.lookup k' m := by
  induction m with
  | nil =>
    rw [dictInsert]
    rw [lookup_cons_ne k k' v [] h]
  | cons q rest ih =>
    rw [dictInsert]
    rcases q with ⟨qk, qv⟩
    by_cases hk : k = qk
    · rw [if_pos (show k = (qk, qv).1 from hk)]
      subst hk
      rw [lookup_cons_ne k k' v rest h, lookup_cons_ne k k' qv rest h]
    · rw [if_neg (show ¬k = (qk, qv).1 from hk)]
      by_cases hq : k' = qk
      · subst hq
        rw [lookup_cons_self k' qv (dictInsert k v rest),
          lookup_cons_self k' qv rest]
      · rw [lookup_cons_ne qk k' qv (dictInsert k v rest) hq,
          lookup_cons_ne qk k' qv rest hq]
        exact ih

theorem lookup_mem {β : Type} {k : String} {v : β}
    {m : List (String × β)} (h : List.lookup k m = some v) : (k, v) ∈ m := by
  induction m with
  | nil => simp [List.lookup] at h
  | cons q rest ih =>
    rcases q with ⟨qk, qv⟩
    by_cases hk : k = qk
    · subst hk
      rw [lookup_cons_self k qv rest] at h
      have hv : qv = v := by simpa using h
      exact List.mem_cons.mpr (Or.inl (by rw [hv]))
    · rw [lookup_cons_ne qk k qv rest hk] at h
      exact List.mem_cons.mpr (Or.inr (ih h))

theorem dictInsert_dictInsert (k : String) (v w : List Client)
    (m : List (String × List Client)) :
    dictInsert k w (dictInsert k v m) = dictInsert k w m := by
  induction m with
  | nil =>
    rw [dictInsert, dictInsert, dictInsert, if_pos rfl]
  | cons q rest ih =>
    by_cases hk : k = q.1
    · rw [dictInsert, if_pos hk, dictInsert, if_pos rfl, dictInsert, if_pos hk]
    · rw [dictInsert, if_neg hk, dictInsert, if_neg hk, dictInsert, if_neg hk, ih]

end WsProxy

namespace WsProxy

theorem broadcast_eq_of_lookup {α : Type} (s : ProxyState) (ch : String)
    (message : α) (sender : Option Client) (sendOk : Client → Bool)
    (members : List Client) (h : List.lookup ch s.channels = some members) :
    broadcast_to_channel s ch message sender sendOk =
      ⟨⟨(((members.filter (fun c => !(sender == some c))).filter
            (fun c => !(sendOk c))).foldl (fun acc c => setDiscard c acc) s.clients),
        dictInsert ch
          (((members.filter (fun c => !(sender == some c))).filter
            (fun c => !(sendOk c))).foldl (fun acc c => setDiscard c acc) members)
          s.channels⟩,
       (members.filter (fun c => !(sender == some c))).map (fun c => (c, message)),
       (members.filter (fun c => !(sender == some c))).filter (fun c => sendOk c)⟩ := by
  unfold broadcast_to_channel
  rw [h]

theorem broadcast_eq_of_none {α : Type} (s : ProxyState) (ch : String)
    (message : α) (sender : Option Client) (sendOk : Client → Bool)
    (h : List.lookup ch s.channels = none) :
    broadcast_to_channel s ch message sender sendOk = ⟨s, [], []⟩ := by
  unfold broadcast_to_channel
  rw [h]

theorem mem_broadcast_sent {α : Type} (s : ProxyState) (ch : String)
    (message : α) (sender : Option Client) (sendOk : Client → Bool)
    (members : List Client) (h : List.lookup ch s.channels = some members)
    (c : Client) (msg : α) :
    (c, msg) ∈ (broadcast_to_channel s ch message sender sendOk).sent ↔
      c ∈ members ∧ sender ≠ some c ∧ msg = message := by
  rw [broadcast_eq_of_lookup s ch message sender sendOk members h]
  simp only [List.mem_map, List.mem_filter, Bool.not_eq_true', beq_eq_false_iff_ne,
    Prod.mk.injEq]
  constructor
  · rintro ⟨x, ⟨hx, hne⟩, rfl, rfl⟩
    exact ⟨hx, hne, rfl⟩
  · rintro ⟨hc, hne, rfl⟩
    exact ⟨c, ⟨hc, hne⟩, rfl, rfl⟩

end WsProxy

namespace WsProxy

/-- C2: for every existing channel, every message and every sender,
broadcast_to_channel makes a send call carrying the message to exactly the
current members of the channel other than the sender — in particular to
every such member — and never sends the message back to the sender. -/
theorem broadcast_sends_exactly_nonsender_members {α : Type} (s : ProxyState)
    (ch : String) (message : α) (sender : Option Client) (sendOk : Client → Bool)
    (members : List Client) (h : List.lookup ch s.channels = some members) :
    (∀ c msg, (c, msg) ∈ (broadcast_to_channel s ch message sender sendOk).sent ↔
      c ∈ members ∧ sender ≠ some c ∧ msg = message) ∧
    (∀ c, sender = some c →
      ∀ msg, (c, msg) ∉ (broadcast_to_channel s ch message sender sendOk).sent) := by
  refine ⟨fun c msg => mem_broadcast_sent s ch message sender sendOk members h c msg, ?_⟩
  rintro c rfl msg hmem
  have := (mem_broadcast_sent s ch message (some c) sendOk members h c msg).mp hmem
  exact this.2.1 rfl

/-- Witness for C2 at a concrete state: in a channel room with members 1
and 2, a broadcast from sender 1 sends the message to member 2. -/
theorem broadcast_sends_exactly_nonsender_members_witness :
    ((2 : Client), "hello") ∈
      (broadcast_to_channel ⟨[0, 1, 2], [("room", [1, 2])]⟩ "room" "hello"
        (some 1) (fun _ => true)).sent :=
  ((broadcast_sends_exactly_nonsender_members ⟨[0, 1, 2], [("room", [1, 2])]⟩
      "room" "hello" (some 1) (fun _ => true) [1, 2] (by decide)).1 2 "hello").mpr
    (by decide)

/-- C5: when some deliveries fail during a broadcast, the send call is still
made for every non-sender member of the channel; afterwards exactly the
failed non-sender members are removed from this channel's member set and
from the global client set (the removal acts on the post-pass state, so a
failure does not stop the pass); and no send call at all — in particular no
failure report — goes to the sender. -/
theorem broadcast_failure_handling {α : Type} (s : ProxyState) (ch : String)
    (message : α) (sender : Option Client) (sendOk : Client → Bool)
    (members : List Client) (h : List.lookup ch s.channels = some members) :
    (∀ c, c ∈ members → sender ≠ some c →
      (c, message) ∈ (broadcast_to_channel s ch message sender sendOk).sent) ∧
    (∃ newMembers,
      List.lookup ch (broadcast_to_channel s ch message sender sendOk).state.channels =
        some newMembers ∧
      ∀ c, c ∈ newMembers ↔
        c ∈ members ∧ (sender = some c ∨ sendOk c = true)) ∧
    (∀ c, c ∈ (broadcast_to_channel s ch message sender sendOk).state.clients ↔
      c ∈ s.clients ∧ ¬(c ∈ members ∧ sender ≠ some c ∧ sendOk c = false)) ∧
    (∀ c, sender = some c →
      ∀ msg, (c, msg) ∉ (broadcast_to_channel s ch message sender sendOk).sent) := by
  rw [broadcast_eq_of_lookup s ch message sender sendOk members h]
  refine ⟨?_, ⟨_, lookup_dictInsert_self ch _ s.channels, ?_⟩, ?_, ?_⟩
  · intro c hc hne
    simp only [List.mem_map, List.mem_filter, Bool.not_eq_true', beq_eq_false_iff_ne]
    exact ⟨c, ⟨hc, hne⟩, rfl⟩
  · intro c
    rw [mem_foldl_setDiscard]
    simp only [List.mem_filter, Bool.not_eq_true', beq_eq_false_iff_ne]
    constructor
    · rintro ⟨hc, hn⟩
      refine ⟨hc, ?_⟩
      by_cases hs : sender = some c
      · exact Or.inl hs
      · rcases Bool.eq_false_or_eq_true (sendOk c) with hb | hb
        · exact Or.inr hb
        · exact absurd ⟨⟨hc, hs⟩, hb⟩ hn
    · rintro ⟨hc, hor⟩
      refine ⟨hc, ?_⟩
      rintro ⟨⟨-, hne⟩, hfail⟩
      rcases hor with hs | hb
      · exact hne hs
      · rw [hb] at hfail
        cases hfail
  · intro c
    rw [mem_foldl_setDiscard]
    simp only [List.mem_filter, Bool.not_eq_true', beq_eq_false_iff_ne]
    constructor
    · rintro ⟨hc, hn⟩
      refine ⟨hc, ?_⟩
      rintro ⟨hm, hne, hfail⟩
      exact hn ⟨⟨hm, hne⟩, hfail⟩
    · rintro ⟨hc, hn⟩
      refine ⟨hc, ?_⟩
      rintro ⟨⟨hm, hne⟩, hfail⟩
      exact hn ⟨hm, hne, hfail⟩
  · rintro c rfl msg hmem
    simp only [List.mem_map, List.mem_filter, Bool.not_eq_true',
      beq_eq_false_iff_ne, Prod.mk.injEq] at hmem
    rcases hmem with ⟨x, ⟨-, hne⟩, rfl, -⟩
    exact hne rfl

/-- Witness for C5 at a concrete state: member 2's send fails while the
send call to it is still made. -/
theorem broadcast_failure_handling_witness :
    ((2 : Client), "m") ∈
      (broadcast_to_channel ⟨[0, 1, 2], [("room", [1, 2])]⟩ "room" "m"
        (some 0) (fun c => c == 1)).sent :=
  (broadcast_failure_handling ⟨[0, 1, 2], [("room", [1, 2])]⟩ "room" "m"
      (some 0) (fun c => c == 1) [1, 2] (by decide)).1 2 (by decide) (by decide)

/-- C7: a broadcast to a channel name that is not a key of the channels map
makes no send call, raises no error, and leaves the clients and channels
state unchanged (the code only logs a warning). -/
theorem broadcast_unknown_channel_noop {α : Type} (s : ProxyState) (ch : String)
    (message : α) (sender : Option Client) (sendOk : Client → Bool)
    (h : List.lookup ch s.channels = none) :
    broadcast_to_channel s ch message sender sendOk = ⟨s, [], []⟩ :=
  broadcast_eq_of_none s ch message sender sendOk h

/-- Witness for C7 at a concrete state with no channel named room. -/
theorem broadcast_unknown_channel_noop_witness :
    broadcast_to_channel ⟨[0, 1], [("other", [1])]⟩ "room" "x" (some 0)
        (fun _ => true) =
      ⟨⟨[0, 1], [("other", [1])]⟩, [], []⟩ :=
  broadcast_unknown_channel_noop ⟨[0, 1], [("other", [1])]⟩ "room" "x" (some 0)
    (fun _ => true) (by decide)

/-- C8: join_channel is idempotent — joining the same endpoint to the same
channel twice in succession yields exactly the state of joining it once. -/
theorem join_channel_idempotent (s : ProxyState) (ws : Client) (ch : String) :
    join_channel (join_channel s ws ch) ws ch = join_channel s ws ch := by
  unfold join_channel
  have hm : membersOf { s with channels := dictInsert ch (setAdd ws (membersOf s ch)) s.channels } ch =
      setAdd ws (membersOf s ch) := by
    unfold membersOf
    rw [lookup_dictInsert_self]
    rfl
  rw [hm, setAdd_of_mem (self_mem_setAdd ws (membersOf s ch)), dictInsert_dictInsert]

end WsProxy

namespace WsProxy

/-- C6: an inbound frame that is not parseable as JSON yields exactly one
send call, the invalid-JSON error reply to the offending sender; the
connection is not closed and the clients and channels state is unchanged. -/
theorem handle_malformed_frame (s : ProxyState) (ws : Client)
    (sendOk : Client → Bool) :
    handle_frame s ws .malformed sendOk = ⟨s, [(ws, .invalidJson)], false⟩ := rfl

/-- C3 fails on the code: with channel room existing with sole member 1 and
sender 0 not a member of it, a message frame from 0 naming room is
broadcast to 1 — no error reply is sent to 0 even though 0 never joined
room.  The membership check claimed by the spec does not exist: the code
only checks that the channel is a key of the channels map. -/
theorem C3_counterexample :
    (0 : Client) ∉ membersOf ⟨[0, 1], [("room", [1])]⟩ "room" ∧
    handle_frame ⟨[0, 1], [("room", [1])]⟩ 0
        (.parsed ⟨some "message", some "room", true, some "x", true⟩)
        (fun _ => true) =
      ⟨⟨[0, 1], [("room", [1])]⟩,
       [(1, .forwarded ⟨some "message", some "room", true, some "x", true⟩)],
       false⟩ := by
  decide

/-- C3 amended: a message frame is broadcast exactly when its channel field
is a non-empty string that is a key of the channels map — whether or not
the sender is a member — and the broadcast sends nothing to the sender;
otherwise (channel missing, empty, or not a key) an error reply naming the
channel is sent to the sender only and nothing is broadcast. -/
theorem handle_message_frame (s : ProxyState) (ws : Client) (d : MsgData)
    (sendOk : Client → Bool) (hty : d.msgType = some "message") :
    (∀ ch, d.channel = some ch → ch ≠ "" →
      ∀ members, List.lookup ch s.channels = some members →
        handle_frame s ws (.parsed d) sendOk =
          ⟨(broadcast_to_channel s ch (Reply.forwarded d) (some ws) sendOk).state,
           (broadcast_to_channel s ch (Reply.forwarded d) (some ws) sendOk).sent,
           false⟩ ∧
        ∀ msg, (ws, msg) ∉
          (broadcast_to_channel s ch (Reply.forwarded d) (some ws) sendOk).sent) ∧
    (∀ ch, d.channel = some ch → (ch = "" ∨ List.lookup ch s.channels = none) →
      handle_frame s ws (.parsed d) sendOk =
        ⟨s, [(ws, .notFound d.idVal ch)], false⟩) ∧
    (d.channel = none →
      handle_frame s ws (.parsed d) sendOk =
        ⟨s, [(ws, .notFound d.idVal "None")], false⟩) := by
  refine ⟨?_, ?_, ?_⟩
  · rintro ch hch hne members hlk
    refine ⟨?_, ?_⟩
    · simp [handle_frame, hty, hch, hlk,
        show (ch == "") = false from beq_eq_false_iff_ne.mpr hne]
    · intro msg hmem
      exact ((mem_broadcast_sent s ch (Reply.forwarded d) (some ws) sendOk
        members hlk ws msg).mp hmem).2.1 rfl
  · rintro ch hch (rfl | hnone)
    · simp [handle_frame, hty, hch]
    · simp [handle_frame, hty, hch, hnone]
  · intro hch
    simp [handle_frame, hty, hch]

/-- Witness for C3 amended at a concrete state: a message frame naming a
channel that is not a key of the map draws the error reply to the sender
only. -/
theorem handle_message_frame_witness :
    handle_frame ⟨[0, 1], [("room", [1])]⟩ 0
        (.parsed ⟨some "message", some "nope", true, some "x", true⟩)
        (fun _ => true) =
      ⟨⟨[0, 1], [("room", [1])]⟩, [(0, .notFound (some "x") "nope")], false⟩ :=
  (handle_message_frame ⟨[0, 1], [("room", [1])]⟩ 0
      ⟨some "message", some "nope", true, some "x", true⟩ (fun _ => true)
      rfl).2.1 "nope" rfl (Or.inr (by decide))

end WsProxy

namespace WsProxy

theorem channels_unchanged_register (s : ProxyState) (ws : Client) :
    (register_client s ws).channels = s.channels := rfl

theorem channelInv_unregister (s : ProxyState) (ws : Client) :
    ChannelInv (unregister_client s ws) := by
  intro p hp
  rcases List.mem_filter.mp hp with ⟨-, hne⟩
  intro hnil
  rw [hnil] at hne
  cases hne

theorem channelInv_join (s : ProxyState) (ws : Client) (ch : String)
    (hinv : ChannelInv s) : ChannelInv (join_channel s ws ch) := by
  intro p hp
  rcases mem_dictInsert ch (setAdd ws (membersOf s ch)) s.channels p hp with h | h
  · rw [h]
    exact setAdd_ne_nil ws (membersOf s ch)
  · exact hinv p h

theorem channelInv_broadcast_of_sender_mem {α : Type} (s : ProxyState)
    (ch : String) (message : α) (sender : Option Client) (sendOk : Client → Bool)
    (hinv : ChannelInv s)
    (hmem : ∀ m, List.lookup ch s.channels = some m →
      ∃ c, sender = some c ∧ c ∈ m) :
    ChannelInv (broadcast_to_channel s ch message sender sendOk).state := by
  cases hl : List.lookup ch s.channels with
  | none =>
    rw [broadcast_eq_of_none s ch message sender sendOk hl]
    exact hinv
  | some members =>
    rw [broadcast_eq_of_lookup s ch message sender sendOk members hl]
    intro p hp
    rcases mem_dictInsert ch _ s.channels p hp with h | h
    · rcases hmem members hl with ⟨c, rfl, hc⟩
      have hne : (((members.filter (fun x => !((some c : Option Client) == some x))).filter
          (fun x => !(sendOk x))).foldl (fun acc x => setDiscard x acc) members) ≠ [] := by
        intro hnil
        have hmem2 : c ∈ (((members.filter (fun x => !((some c : Option Client) == some x))).filter
            (fun x => !(sendOk x))).foldl (fun acc x => setDiscard x acc) members) := by
          rw [mem_foldl_setDiscard]
          refine ⟨hc, fun hin => ?_⟩
          rcases List.mem_filter.mp (List.mem_filter.mp hin).1 with ⟨-, hbe⟩
          rw [Bool.not_eq_true', beq_eq_false_iff_ne] at hbe
          exact hbe rfl
        rw [hnil] at hmem2
        exact List.not_mem_nil c hmem2
      rw [h]
      exact hne
    · exact hinv p h

/-- C1 fails on the code: the state with client 0 and a channel entry room
with an empty member set is reachable — register 0 and 1, let 1 join room,
then broadcast to room from the non-member sender 0 while delivery to 1
fails; broadcast_to_channel discards 1 from the member set but never
deletes the emptied channel entry. -/
theorem C1_counterexample :
    Reachable ⟨[0], [("room", [])]⟩ ∧ ¬ ChannelInv ⟨[0], [("room", [])]⟩ := by
  constructor
  · have h0 : Reachable initState := .init
    have h1 := Reachable.step _ (.register 0) h0
    have h2 := Reachable.step _ (.register 1) h1
    have h3 := Reachable.step _ (.join 1 "room") h2
    have h4 := Reachable.step _ (.broadcast "room" (some 0) (fun _ => false)) h3
    have he : applyOp (applyOp (applyOp (applyOp initState (.register 0))
        (.register 1)) (.join 1 "room")) (.broadcast "room" (some 0)
        (fun _ => false)) = ⟨[0], [("room", [])]⟩ := by decide
    rw [he] at h4
    exact h4
  · intro h
    exact h ("room", []) (by decide) rfl

/-- C1 amended: join_channel and unregister_client always preserve the
channels-are-nonempty invariant, and broadcast_to_channel preserves it when
the sender is a member of the target channel; hence the invariant holds in
every state reached along traces whose broadcasts are issued by a sender
that is a member of the target channel whenever that channel exists.  (The
counterexample shows it can fail when the sender is not a member and every
delivery fails.) -/
theorem channelInv_of_reachableSM (s : ProxyState) (h : ReachableSM s) :
    ChannelInv s := by
  induction h with
  | init => intro p hp; cases hp
  | register s ws _ ih =>
    intro p hp
    exact ih p hp
  | unregister s ws _ _ =>
    exact channelInv_unregister s ws
  | join s ws ch _ ih =>
    exact channelInv_join s ws ch ih
  | broadcast s ch sender sendOk hmem _ ih =>
    exact channelInv_broadcast_of_sender_mem s ch () sender sendOk ih hmem

/-- Witness for C1 amended: a state reached by a join followed by a
broadcast from the member itself satisfies the invariant. -/
theorem channelInv_of_reachableSM_witness :
    ChannelInv ((broadcast_to_channel (join_channel initState 0 "room") "room" ()
      (some 0) (fun _ => false)).state) :=
  channelInv_of_reachableSM _
    (ReachableSM.broadcast (join_channel initState 0 "room") "room" (some 0)
      (fun _ => false)
      (fun m hm => ⟨0, rfl, by
        have : m = [0] := by
          have h : List.lookup "room" (join_channel initState 0 "room").channels =
              some [0] := by decide
          rw [h] at hm
          exact (Option.some.injEq _ _).mp hm.symm
        rw [this]
        exact List.mem_cons_self 0 []⟩)
      (ReachableSM.join initState 0 "room" ReachableSM.init))

end WsProxy

namespace WsProxy

/-- C4 fails on the code: after endpoint 0 joins channel a and then channel
b, it is a member of both — join_channel adds to the target channel without
removing the endpoint from any other channel, so the reachable state below
has 0 in two channels at once. -/
theorem C4_counterexample :
    Reachable ⟨[0], [("a", [0]), ("b", [0])]⟩ ∧
    ¬ AtMostOneChannel ⟨[0], [("a", [0]), ("b", [0])]⟩ := by
  constructor
  · have h0 : Reachable initState := .init
    have h1 := Reachable.step _ (.register 0) h0
    have h2 := Reachable.step _ (.join 0 "a") h1
    have h3 := Reachable.step _ (.join 0 "b") h2
    have he : applyOp (applyOp (applyOp initState (.register 0)) (.join 0 "a"))
        (.join 0 "b") = ⟨[0], [("a", [0]), ("b", [0])]⟩ := by decide
    rw [he] at h3
    exact h3
  · intro h
    have := h 0 "a" "b" [0] [0] (by decide) (by decide) (by decide) (by decide)
    exact absurd this (by decide)

/-- C4 amended: join_channel for an endpoint that is already a member of a
different channel leaves that membership intact, so after the join the
endpoint is a member of both the old and the new channel; only
unregister_client removes an endpoint from every channel. -/
theorem join_channel_keeps_other_membership (s : ProxyState) (ws : Client)
    (ch ch' : String) (m' : List Client) (hne : ch' ≠ ch)
    (h' : List.lookup ch' s.channels = some m') (hm : ws ∈ m') :
    (List.lookup ch' (join_channel s ws ch).channels = some m' ∧ ws ∈ m') ∧
    (∃ m, List.lookup ch (join_channel s ws ch).channels = some m ∧ ws ∈ m) := by
  refine ⟨⟨?_, hm⟩, ?_⟩
  · unfold join_channel
    rw [lookup_dictInsert_ne ch ch' (setAdd ws (membersOf s ch)) s.channels hne]
    exact h'
  · refine ⟨setAdd ws (membersOf s ch), ?_, self_mem_setAdd ws (membersOf s ch)⟩
    unfold join_channel
    exact lookup_dictInsert_self ch (setAdd ws (membersOf s ch)) s.channels

/-- Witness for C4 amended at a concrete state: 0 is a member of channel a,
then joins channel b, and its membership of a survives. -/
theorem join_channel_keeps_other_membership_witness :
    List.lookup "a" (join_channel ⟨[0], [("a", [0])]⟩ 0 "b").channels =
      some [0] ∧ (0 : Client) ∈ [0] :=
  (join_channel_keeps_other_membership ⟨[0], [("a", [0])]⟩ 0 "b" "a" [0]
    (by decide) (by decide) (by decide)).1

/-- C9 fails on the code: endpoint 1 joins channels a and b (both joins made
while it is registered); a broadcast to channel a whose delivery to 1 fails
removes 1 from the global client set but only from channel a's member set,
leaving 1 a member of channel b while absent from the client set. -/
theorem C9_counterexample :
    ReachableH ⟨[0], [("a", []), ("b", [1])]⟩ ∧
    ¬ MembersRegistered ⟨[0], [("a", []), ("b", [1])]⟩ := by
  constructor
  · have h0 : ReachableH initState := .init
    have h1 := ReachableH.register _ 0 h0
    have h2 := ReachableH.register _ 1 h1
    have h3 := ReachableH.join _ 1 "a" h2 (by decide)
    have h4 := ReachableH.join _ 1 "b" h3 (by decide)
    have h5 := ReachableH.broadcast _ "a" (some 0) (fun _ => false) h4
    have he : (broadcast_to_channel (join_channel (join_channel
        (register_client (register_client initState 0) 1) 1 "a") 1 "b") "a" ()
        (some 0) (fun _ => false)).state = ⟨[0], [("a", []), ("b", [1])]⟩ := by
      decide
    rw [he] at h5
    exact h5
  · intro h
    have := h ("b", [1]) (by decide) 1 (by decide)
    exact absurd this (by decide)

theorem membersRegistered_register (s : ProxyState) (ws : Client)
    (ih : MembersRegistered s) : MembersRegistered (register_client s ws) := by
  intro p hp c hc
  exact (mem_setAdd ws c s.clients).mpr (Or.inr (ih p hp c hc))

theorem membersRegistered_unregister (s : ProxyState) (ws : Client)
    (ih : MembersRegistered s) : MembersRegistered (unregister_client s ws) := by
  intro p hp c hc
  rcases List.mem_filter.mp hp with ⟨hmap, -⟩
  rcases List.mem_map.mp hmap with ⟨q, hq, rfl⟩
  rcases (mem_setDiscard ws c q.2).mp hc with ⟨hcq, hcne⟩
  exact (mem_setDiscard ws c s.clients).mpr ⟨ih q hq c hcq, hcne⟩

theorem membersRegistered_join (s : ProxyState) (ws : Client) (ch : String)
    (hws : ws ∈ s.clients) (ih : MembersRegistered s) :
    MembersRegistered (join_channel s ws ch) := by
  intro p hp c hc
  rcases mem_dictInsert ch (setAdd ws (membersOf s ch)) s.channels p hp with h | h
  · rw [h] at hc
    rcases (mem_setAdd ws c (membersOf s ch)).mp hc with rfl | hcm
    · exact hws
    · unfold membersOf at hcm
      cases hl : List.lookup ch s.channels with
      | none =>
        rw [hl] at hcm
        cases hcm
      | some m =>
        rw [hl] at hcm
        exact ih (ch, m) (lookup_mem hl) c hcm
  · exact ih p h c hc

theorem membersRegistered_broadcast_ok {α : Type} (s : ProxyState) (ch : String)
    (message : α) (sender : Option Client) (sendOk : Client → Bool)
    (hok : ∀ c, sendOk c = true) (ih : MembersRegistered s) :
    MembersRegistered (broadcast_to_channel s ch message sender sendOk).state := by
  cases hl : List.lookup ch s.channels with
  | none =>
    rw [broadcast_eq_of_none s ch message sender sendOk hl]
    exact ih
  | some members =>
    rw [broadcast_eq_of_lookup s ch message sender sendOk members hl]
    have hdis : ((members.filter (fun c => !(sender == some c))).filter
        (fun c => !(sendOk c))) = [] := by
      rw [List.filter_eq_nil_iff]
      intro a ha
      rw [hok a]
      simp
    rw [hdis]
    simp only [List.foldl_nil]
    intro p hp c hc
    rcases mem_dictInsert ch members s.channels p hp with h | h
    · rw [h] at hc
      exact ih (ch, members) (lookup_mem hl) c hc
    · exact ih p h c hc

/-- C9 amended: every member of every channel is registered in the global
client set in every state reached handler-style (joins performed by
registered connections) along traces in which no broadcast delivery fails;
the counterexample shows the invariant can break when a delivery failure
makes broadcast_to_channel drop the failed endpoint from the client set but
only from the broadcast channel, not from its other channels. -/
theorem membersRegistered_of_reachableHOk (s : ProxyState)
    (h : ReachableHOk s) : MembersRegistered s := by
  induction h with
  | init => intro p hp; cases hp
  | register s ws _ ih => exact membersRegistered_register s ws ih
  | unregister s ws _ ih => exact membersRegistered_unregister s ws ih
  | join s ws ch _ hws ih =>
    exact membersRegistered_join s ws ch hws ih
  | broadcast s ch sender sendOk hok _ ih =>
    exact membersRegistered_broadcast_ok s ch () sender sendOk hok ih

/-- Witness for C9 amended: the invariant holds in a concrete state reached
by registering 0 and letting it join a channel. -/
theorem membersRegistered_of_reachableHOk_witness :
    MembersRegistered (join_channel (register_client initState 0) 0 "room") :=
  membersRegistered_of_reachableHOk _
    (ReachableHOk.join (register_client initState 0) 0 "room"
      (ReachableHOk.register initState 0 ReachableHOk.init) (by decide))

end WsProxy

namespace FigmaTypes

theorem hexOf_zero : hexOf 0 0 0 = "#000000" := by
  unfold hexOf
  rw [zero_mul]
  decide

theorem rgba_some_eq_hexOf (d : PyDict) :
    rgba_to_hex (some d) = hexOf (dget d "r") (dget d "g") (dget d "b") := by
  cases d with
  | nil => exact hexOf_zero.symm
  | cons p rest => rfl

/-- C10: the result of rgba_to_hex depends only on the r, g and b fields of
a dict input — two dicts agreeing on those three fields (read with default
0), whatever their a or other fields, give the same hex string — and both
None and the empty dict give black. -/
theorem rgba_to_hex_depends_only_rgb :
    (∀ d₁ d₂ : PyDict, dget d₁ "r" = dget d₂ "r" → dget d₁ "g" = dget d₂ "g" →
      dget d₁ "b" = dget d₂ "b" →
      rgba_to_hex (some d₁) = rgba_to_hex (some d₂)) ∧
    rgba_to_hex none = "#000000" ∧ rgba_to_hex (some []) = "#000000" := by
  refine ⟨?_, rfl, rfl⟩
  intro d₁ d₂ hr hg hb
  rw [rgba_some_eq_hexOf d₁, rgba_some_eq_hexOf d₂, hr, hg, hb]

/-- Witness for C10: two concrete dicts agreeing on r and lacking g and b,
one with an alpha field and an extra field, give the same hex string. -/
theorem rgba_to_hex_depends_only_rgb_witness :
    rgba_to_hex (some [("r", (1 : ℚ)), ("a", 5)]) =
      rgba_to_hex (some [("a", (0 : ℚ)), ("r", 1), ("x", 3)]) :=
  rgba_to_hex_depends_only_rgb.1 [("r", (1 : ℚ)), ("a", 5)]
    [("a", (0 : ℚ)), ("r", 1), ("x", 3)] (by decide) (by decide) (by decide)

end FigmaTypes
